import Mathlib

/-!
Verification of the AgroPro conversational assistant (`app.py`).

This file gives a shallow embedding, in Lean 4, of the behavioural core of
the application: the bounded conversation buffer, the prompt assembler, the
response fetcher with its exception handling, the document-ingestion
pipeline with its size/format guards and batched index build, and the
persisted-index housekeeping sweep.  External services (the LLM backend,
the embedding model, the FAISS similarity search, the document parsers)
are modelled as oracle functions supplied through environment records;
Python exceptions are modelled with `Except`; Streamlit display calls are
side effects outside the data flow and are not modelled.  Theorems about
these definitions settle the claims of the design specification.
-/

set_option maxHeartbeats 1000000
set_option maxRecDepth 10000

/-- A Python exception, identified by its message. -/
abbrev Err := String

/-! ## Conversation buffer (`class ConversationBuffer`, app.py lines 128-139) -/

/-- One entry of `ConversationBuffer.buffer`: the dict
`{"role": role, "content": content}` appended by `add_message`. -/
structure Msg where
  role : String
  content : String
deriving DecidableEq

/-- `ConversationBuffer`: `self.buffer` (a Python list) and
`self.max_turns` (default 5). -/
structure ConversationBuffer where
  buffer : List Msg
  max_turns : Nat
deriving DecidableEq

/-- `ConversationBuffer.add_message` (app.py lines 133-136):
append `{"role": role, "content": content}`, then
`if len(self.buffer) > self.max_turns * 2: self.buffer = self.buffer[-self.max_turns * 2:]`.
Python slice semantics are kept faithfully: `xs[-n:]` is the last `n`
elements when `n > 0`, but `xs[-0:]` is `xs[0:]`, the whole list — so when
`max_turns = 0` the truncation is a no-op. -/
def ConversationBuffer.add_message (cb : ConversationBuffer) (role content : String) :
    ConversationBuffer :=
  let b := cb.buffer ++ [⟨role, content⟩]
  if b.length > cb.max_turns * 2 then
    ⟨if cb.max_turns * 2 = 0 then b else b.drop (b.length - cb.max_turns * 2), cb.max_turns⟩
  else
    ⟨b, cb.max_turns⟩

/-- Python `sep.join(pieces)`: pieces interleaved with the separator and
concatenated ("" on the empty list).  Used for `"\n".join` in
`get_context` and `process_document`, and `' '.join` over response parts. -/
def joinStr (sep : String) : List String → String
  | [] => ""
  | [a] => a
  | a :: b :: rest => a ++ sep ++ joinStr sep (b :: rest)

/-- `ConversationBuffer.get_context` (app.py lines 138-139):
`"\n".join([f"{msg['role']}: {msg['content']}" for msg in self.buffer])`. -/
def ConversationBuffer.get_context (cb : ConversationBuffer) : String :=
  joinStr "\n" (cb.buffer.map (fun msg => msg.role ++ ": " ++ msg.content))

/-- Run a sequence of `add_message` calls (role/content pairs) left to
right on a buffer. -/
def runAdds (cb : ConversationBuffer) (ts : List (String × String)) : ConversationBuffer :=
  ts.foldl (fun c rc => c.add_message rc.1 rc.2) cb

/-! ### Buffer lemmas -/

lemma strAppendAssoc (a b c : String) : a ++ b ++ c = a ++ (b ++ c) := by
  cases a; cases b; cases c
  apply congrArg String.mk
  show (_ ++ _) ++ _ = _ ++ (_ ++ _)
  exact List.append_assoc ..

lemma add_message_max (cb : ConversationBuffer) (r c : String) :
    (cb.add_message r c).max_turns = cb.max_turns := by
  unfold ConversationBuffer.add_message
  dsimp only
  split <;> rfl

/-- Under the bound invariant (and a positive `max_turns`), `add_message`
acts as append-then-drop-from-the-front. -/
lemma add_message_eq_drop (cb : ConversationBuffer) (r c : String)
    (hm : 1 ≤ cb.max_turns) :
    (cb.add_message r c).buffer =
      (cb.buffer ++ [(⟨r, c⟩ : Msg)]).drop ((cb.buffer.length + 1) - cb.max_turns * 2) := by
  unfold ConversationBuffer.add_message
  dsimp only
  by_cases h : (cb.buffer ++ [(⟨r, c⟩ : Msg)]).length > cb.max_turns * 2
  · rw [if_pos h, if_neg (by omega)]
    simp only [List.length_append, List.length_cons, List.length_nil]
  · rw [if_neg h]
    have : (cb.buffer.length + 1) - cb.max_turns * 2 = 0 := by
      simp only [List.length_append, List.length_cons, List.length_nil] at h
      omega
    rw [this, List.drop_zero]

lemma add_message_len_le (cb : ConversationBuffer) (r c : String)
    (hm : 1 ≤ cb.max_turns) (hb : cb.buffer.length ≤ cb.max_turns * 2) :
    (cb.add_message r c).buffer.length ≤ cb.max_turns * 2 := by
  rw [add_message_eq_drop cb r c hm]
  simp only [List.length_drop, List.length_append, List.length_cons, List.length_nil]
  omega

/-- Folding `add_message` over a turn list keeps only the most recent
`2 * max_turns` entries, in order. -/
lemma runAdds_eq_drop (m : Nat) (hm : 1 ≤ m) :
    ∀ (ts : List (String × String)) (buf : List Msg), buf.length ≤ m * 2 →
      runAdds ⟨buf, m⟩ ts =
        ⟨(buf ++ ts.map (fun rc => (⟨rc.1, rc.2⟩ : Msg))).drop
          ((buf.length + ts.length) - m * 2), m⟩ := by
  intro ts
  induction ts with
  | nil =>
    intro buf hb
    simp only [runAdds, List.foldl_nil, List.map_nil, List.append_nil, List.length_nil,
      Nat.add_zero]
    have : buf.length - m * 2 = 0 := by omega
    rw [this, List.drop_zero]
  | cons rc ts ih =>
    intro buf hb
    have hstep : (ConversationBuffer.add_message ⟨buf, m⟩ rc.1 rc.2) =
        ⟨(buf ++ [(⟨rc.1, rc.2⟩ : Msg)]).drop ((buf.length + 1) - m * 2), m⟩ := by
      have h1 := add_message_eq_drop ⟨buf, m⟩ rc.1 rc.2 hm
      have h2 := add_message_max ⟨buf, m⟩ rc.1 rc.2
      cases hcb : ConversationBuffer.add_message ⟨buf, m⟩ rc.1 rc.2
      simp_all
    have hlen : ((buf ++ [(⟨rc.1, rc.2⟩ : Msg)]).drop ((buf.length + 1) - m * 2)).length ≤ m * 2 := by
      simp only [List.length_drop, List.length_append, List.length_cons, List.length_nil]
      omega
    have : runAdds ⟨buf, m⟩ (rc :: ts) =
        runAdds ⟨(buf ++ [(⟨rc.1, rc.2⟩ : Msg)]).drop ((buf.length + 1) - m * 2), m⟩ ts := by
      simp only [runAdds, List.foldl_cons, hstep]
    rw [this, ih _ hlen]
    have harith : (buf.length + 1) - m * 2 ≤ (buf ++ [(⟨rc.1, rc.2⟩ : Msg)]).length := by
      simp only [List.length_append, List.length_cons, List.length_nil]
      omega
    congr 1
    rw [← List.drop_append_of_le_length harith, List.drop_drop]
    have hassoc : (buf ++ [(⟨rc.1, rc.2⟩ : Msg)]) ++ ts.map (fun rc => (⟨rc.1, rc.2⟩ : Msg)) =
        buf ++ (rc :: ts).map (fun rc => (⟨rc.1, rc.2⟩ : Msg)) := by
      simp
    rw [hassoc]
    congr 1
    simp only [List.length_drop, List.length_append, List.length_cons, List.length_nil,
      List.length_map]
    omega

/-! ### C3: buffer bound and FIFO eviction -/

/-- C3 (amended: `max_turns ≥ 1`).  For a buffer with positive `max_turns`:
after any sequence of at least `2*max_turns + 1` calls to `add_message`
starting from the empty buffer, the length is exactly `2*max_turns` and
the contents are exactly the most recently added `2*max_turns` turns in
insertion order; moreover the bound `len ≤ 2*max_turns` is an invariant
preserved by every `add_message` call. -/
theorem conversation_buffer_fifo_bound (m : Nat) (hm : 1 ≤ m)
    (ts : List (String × String)) (hts : 2 * m + 1 ≤ ts.length) :
    (runAdds ⟨[], m⟩ ts).buffer.length = 2 * m ∧
    (runAdds ⟨[], m⟩ ts).buffer =
      (ts.map (fun rc => (⟨rc.1, rc.2⟩ : Msg))).drop (ts.length - 2 * m) ∧
    (∀ cb : ConversationBuffer, ∀ r c : String, cb.max_turns = m →
      cb.buffer.length ≤ 2 * m → (cb.add_message r c).buffer.length ≤ 2 * m) := by
  have h := runAdds_eq_drop m hm ts [] (by simp)
  refine ⟨?_, ?_, ?_⟩
  · rw [h]
    simp only [List.nil_append, List.length_nil, Nat.zero_add, List.length_drop,
      List.length_map]
    omega
  · rw [h]
    simp only [List.nil_append, List.length_nil, Nat.zero_add]
    congr 1
    omega
  · intro cb r c hmax hlen
    have := add_message_len_le cb r c (by omega) (by omega)
    omega

/-- Witness for C3's amended theorem: with `max_turns = 1` and three
additions, the buffer keeps exactly the last two turns. -/
theorem conversation_buffer_fifo_bound_witness :
    (runAdds ⟨[], 1⟩ [("user", "a"), ("assistant", "b"), ("user", "c")]).buffer.length = 2 * 1 ∧
    (runAdds ⟨[], 1⟩ [("user", "a"), ("assistant", "b"), ("user", "c")]).buffer =
      ([("user", "a"), ("assistant", "b"), ("user", "c")].map
        (fun rc => (⟨rc.1, rc.2⟩ : Msg))).drop
        ([("user", "a"), ("assistant", "b"), ("user", "c")].length - 2 * 1) ∧
    (∀ cb : ConversationBuffer, ∀ r c : String, cb.max_turns = 1 →
      cb.buffer.length ≤ 2 * 1 → (cb.add_message r c).buffer.length ≤ 2 * 1) :=
  conversation_buffer_fifo_bound 1 (by decide)
    [("user", "a"), ("assistant", "b"), ("user", "c")] (by decide)

/-- C3 counterexample: the claim quantifies over every `ConversationBuffer`,
but for `max_turns = 0` the Python slice `self.buffer[-0:]` is the whole
list, so one `add_message` call (a sequence of length `2*0 + 1`) leaves a
buffer of length 1, not `2 * max_turns = 0`, and the bound
`len ≤ 2*max_turns` is not preserved. -/
theorem conversation_buffer_fifo_bound_counterexample :
    (2 * 0 + 1 ≤ ([("user", "hi")] : List (String × String)).length) ∧
    (runAdds ⟨[], 0⟩ [("user", "hi")]).buffer.length = 1 ∧
    ¬ (runAdds ⟨[], 0⟩ [("user", "hi")]).buffer.length ≤ 2 * 0 := by
  refine ⟨by decide, rfl, by decide⟩

/-! ### C4: get_context rendering -/

lemma joinStr_snoc (sep : String) :
    ∀ (l : List String) (x : String), l ≠ [] →
      joinStr sep (l ++ [x]) = joinStr sep l ++ sep ++ x := by
  intro l
  induction l with
  | nil => intro x hx; exact absurd rfl hx
  | cons a l ih =>
    intro x _
    cases l with
    | nil => rfl
    | cons b l' =>
      have : joinStr sep ((a :: b :: l') ++ [x]) =
          a ++ sep ++ joinStr sep ((b :: l') ++ [x]) := rfl
      rw [this, ih x (by simp), joinStr]
      simp [strAppendAssoc]

/-- C4.  `get_context` renders the retained turns: the empty buffer gives
the empty string; a buffer extended at the back renders as the previous
rendering plus a newline plus `"{role}: {content}"`; one user turn X and
one assistant turn Y render as `"user: X\nassistant: Y"`; and the result
is a deterministic function of the turn sequence (independent of
`max_turns`). -/
theorem get_context_rendering :
    (∀ cb : ConversationBuffer, cb.buffer = [] → cb.get_context = "") ∧
    (∀ (buf : List Msg) (x : Msg) (mt : Nat), buf ≠ [] →
      ConversationBuffer.get_context ⟨buf ++ [x], mt⟩ =
        ConversationBuffer.get_context ⟨buf, mt⟩ ++ "\n" ++ (x.role ++ ": " ++ x.content)) ∧
    (∀ (X Y : String) (mt : Nat),
      ConversationBuffer.get_context ⟨[⟨"user", X⟩, ⟨"assistant", Y⟩], mt⟩ =
        "user: " ++ X ++ "\n" ++ "assistant: " ++ Y) ∧
    (∀ b₁ b₂ : ConversationBuffer, b₁.buffer = b₂.buffer →
      b₁.get_context = b₂.get_context) := by
  refine ⟨?_, ?_, ?_, ?_⟩
  · intro cb h
    unfold ConversationBuffer.get_context
    rw [h]
    rfl
  · intro buf x mt hbuf
    unfold ConversationBuffer.get_context
    simp only [List.map_append, List.map_cons, List.map_nil]
    exact joinStr_snoc "\n" _ _ (by simpa using hbuf)
  · intro X Y mt
    unfold ConversationBuffer.get_context
    simp only [List.map_cons, List.map_nil]
    show ("user" ++ ": " ++ X) ++ "\n" ++ ("assistant" ++ ": " ++ Y) =
      "user: " ++ X ++ "\n" ++ "assistant: " ++ Y
    have h1 : "user" ++ ": " = "user: " := rfl
    have h2 : "assistant" ++ ": " = "assistant: " := rfl
    rw [strAppendAssoc ("user" ++ ": " ++ X) "\n" ("assistant" ++ ": " ++ Y)]
    rw [h1, h2]
    simp only [strAppendAssoc]
  · intro b₁ b₂ h
    unfold ConversationBuffer.get_context
    rw [h]

/-- Witness for C4: concrete one-user-one-assistant buffer. -/
theorem get_context_rendering_witness :
    ConversationBuffer.get_context ⟨[], 5⟩ = "" ∧
    ConversationBuffer.get_context ⟨[(⟨"user", "X"⟩ : Msg)] ++ [(⟨"assistant", "Y"⟩ : Msg)], 5⟩ =
      ConversationBuffer.get_context ⟨[(⟨"user", "X"⟩ : Msg)], 5⟩ ++ "\n" ++
        ("assistant" ++ ": " ++ "Y") ∧
    ConversationBuffer.get_context ⟨[⟨"user", "X"⟩, ⟨"assistant", "Y"⟩], 5⟩ =
      "user: " ++ "X" ++ "\n" ++ "assistant: " ++ "Y" :=
  ⟨get_context_rendering.1 ⟨[], 5⟩ rfl,
   get_context_rendering.2.1 [⟨"user", "X"⟩] ⟨"assistant", "Y"⟩ 5 (by simp),
   get_context_rendering.2.2.1 "X" "Y" 5⟩

/-! ## Response fetcher (`get_gemini_response` / `safe_get_gemini_response`,
app.py lines 141-179) -/

/-- A langchain document returned by `similarity_search`; only its
`page_content` is used. -/
structure Doc where
  page_content : String

/-- The session vectorstore from the query path's point of view: its
`similarity_search(prompt, k)` method, an external call that may raise. -/
structure Vectorstore where
  similarity_search : String → Nat → Except Err (List Doc)

/-- The shapes a Gemini reply can take, per the duck-typed probing of
app.py lines 171-176: a `.text` attribute, a `.parts` sequence (each part
carrying text), or anything else (stringified as a last resort). -/
inductive GenResponse where
  | text (t : String)
  | parts (ps : List String)
  | other (s : String)

/-- The external LLM backend: `model.generate_content(full_context)`, an
external call that may raise. -/
structure Model where
  generate_content : String → Except Err GenResponse

/-- Reply normalization (app.py lines 171-176): prefer `.text`, else join
the parts' texts with single spaces, else stringify. -/
def normalizeResponse : GenResponse → String
  | .text t => t
  | .parts ps => joinStr " " ps
  | .other s => s

/-- The apology returned inside `get_gemini_response` when the LLM call
fails (app.py line 179) — the Response Fetcher apology of spec section 4.5. -/
def fetcher_apology : String :=
  "I\x27m sorry, I encountered an error. Could you please try again or rephrase your question?"

/-- The apology returned by `safe_get_gemini_response` when anything in
`get_gemini_response` raises (app.py line 146). -/
def wrapper_apology : String :=
  "I\x27m sorry, I encountered an error. Could you please rephrase your question?"

/-- The fixed system preamble `base_context` (app.py lines 149-159),
verbatim, including the indentation of the triple-quoted literal. -/
def base_context : String :=
  "You are AgroPro, a helpful and knowledgeable AI specializing in agriculture, farming practices, crop science, soil health, and sustainable agriculture. When assisting users:\n\n    1. Offer practical advice for farmers and agricultural professionals on topics like crop management, pest control, and sustainable practices.\n    2. Tailor responses for different experience levels, from novice farmers to agriculture experts.\n    3. Provide concise, relevant information, aiming to increase user understanding of agricultural science and industry trends.\n    4. Encourage environmental responsibility by promoting sustainable agricultural methods.\n    5. Suggest real-world applications for farming techniques, such as water conservation, soil management, and organic farming practices.\n    6. Motivate users to improve their practices by suggesting resources and tools for further learning.\n\n    Previous conversation:\n    "

/-- The assembled prompt when a vectorstore is active (app.py line 165):
`f"{base_context}\n{conversation_context}\n\nRelevant document content:\n{doc_context}\n\nUser query: {prompt}"`. -/
def full_context_grounded (conversation_context doc_context prompt : String) : String :=
  base_context ++ "\n" ++ conversation_context ++ "\n\nRelevant document content:\n" ++
    doc_context ++ "\n\nUser query: " ++ prompt

/-- The assembled prompt when no vectorstore is active (app.py line 167):
`f"{base_context}\n{conversation_context}\n\nUser query: {prompt}"`. -/
def full_context_ungrounded (conversation_context prompt : String) : String :=
  base_context ++ "\n" ++ conversation_context ++ "\n\nUser query: " ++ prompt

/-- The `try`/`except` around the LLM call (app.py lines 169-179): on
success normalize the reply, on any exception return the fetcher apology
(the exception does not propagate). -/
def generateStep (m : Model) (full_context : String) : Except Err String :=
  match m.generate_content full_context with
  | .ok response => .ok (normalizeResponse response)
  | .error _ => .ok fetcher_apology

/-- `get_gemini_response` (app.py lines 148-179).  Renders the buffer via
`get_context`, retrieves the top-2 chunks when a vectorstore is given
(`similarity_search` sits OUTSIDE the inner `try`, so a retrieval failure
propagates as `.error`), assembles the prompt, and runs the guarded LLM
call. -/
def get_gemini_response (m : Model) (conversation_buffer : ConversationBuffer)
    (prompt : String) (vectorstore : Option Vectorstore) : Except Err String :=
  let conversation_context := conversation_buffer.get_context
  match vectorstore with
  | some vs =>
    match vs.similarity_search prompt 2 with
    | .error e => .error e
    | .ok relevant_docs =>
      let doc_context := joinStr "\n" (relevant_docs.map Doc.page_content)
      generateStep m (full_context_grounded conversation_context doc_context prompt)
  | none => generateStep m (full_context_ungrounded conversation_context prompt)

/-- `safe_get_gemini_response` (app.py lines 141-146): call
`get_gemini_response` under a catch-all `except`; any exception becomes
the wrapper apology.  The function is total — it never raises. -/
def safe_get_gemini_response (m : Model) (conversation_buffer : ConversationBuffer)
    (prompt : String) (vectorstore : Option Vectorstore) : String :=
  match get_gemini_response m conversation_buffer prompt vectorstore with
  | .ok reply => reply
  | .error _ => wrapper_apology

/-! ### C1: the chat query entrypoint and the apology strings -/

/-- C1 (amended).  `safe_get_gemini_response` is total (it returns a
`String`, never an exception), and every failure in the query round is
mapped to a fixed apology reply — but not always to the same one:
a generation failure is caught inside `get_gemini_response` and yields the
section-4.5 fetcher apology, while a retrieval (`similarity_search`)
failure escapes `get_gemini_response` and is caught by the wrapper, which
returns a slightly different fixed apology string. -/
theorem safe_response_never_raises :
    (∀ (m : Model) (cb : ConversationBuffer) (p : String) (vs : Vectorstore) (e : Err),
      vs.similarity_search p 2 = .error e →
      safe_get_gemini_response m cb p (some vs) = wrapper_apology) ∧
    (∀ (m : Model) (cb : ConversationBuffer) (p : String) (vs : Vectorstore)
        (docs : List Doc) (e : Err),
      vs.similarity_search p 2 = .ok docs →
      m.generate_content (full_context_grounded cb.get_context
        (joinStr "\n" (docs.map Doc.page_content)) p) = .error e →
      safe_get_gemini_response m cb p (some vs) = fetcher_apology) ∧
    (∀ (m : Model) (cb : ConversationBuffer) (p : String) (e : Err),
      m.generate_content (full_context_ungrounded cb.get_context p) = .error e →
      safe_get_gemini_response m cb p none = fetcher_apology) := by
  refine ⟨?_, ?_, ?_⟩
  · intro m cb p vs e h
    unfold safe_get_gemini_response get_gemini_response
    dsimp only
    rw [h]
  · intro m cb p vs docs e hs hg
    unfold safe_get_gemini_response get_gemini_response generateStep
    dsimp only
    rw [hs]
    dsimp only
    rw [hg]
  · intro m cb p e hg
    unfold safe_get_gemini_response get_gemini_response generateStep
    dsimp only
    rw [hg]

/-- Backend doubles used to exercise the failure paths of the query round. -/
def c1_search_down : Vectorstore := ⟨fun _ _ => .error "net down"⟩

/-- A vectorstore whose retrieval succeeds with one chunk. -/
def c1_search_ok : Vectorstore := ⟨fun _ _ => .ok [⟨"chunk"⟩]⟩

/-- An LLM backend whose invocation always raises. -/
def c1_gen_down : Model := ⟨fun _ => .error "quota"⟩

/-- An LLM backend whose invocation succeeds with a plain text reply. -/
def c1_gen_ok : Model := ⟨fun _ => .ok (.text "hi")⟩

/-- Witness for C1's amended theorem at concrete failing backends. -/
theorem safe_response_never_raises_witness :
    safe_get_gemini_response c1_gen_ok ⟨[], 5⟩ "q" (some c1_search_down) = wrapper_apology ∧
    safe_get_gemini_response c1_gen_down ⟨[], 5⟩ "q" (some c1_search_ok) = fetcher_apology ∧
    safe_get_gemini_response c1_gen_down ⟨[], 5⟩ "q" none = fetcher_apology :=
  ⟨safe_response_never_raises.1 c1_gen_ok ⟨[], 5⟩ "q" c1_search_down "net down" rfl,
   safe_response_never_raises.2.1 c1_gen_down ⟨[], 5⟩ "q" c1_search_ok [⟨"chunk"⟩] "quota" rfl rfl,
   safe_response_never_raises.2.2 c1_gen_down ⟨[], 5⟩ "q" "quota" rfl⟩

/-- C1 counterexample.  A retrieval failure is not mapped to the fixed
section-4.5 apology string: the wrapper returns a different apology, and
`get_gemini_response` itself (which the chat UI calls directly) propagates
the exception. -/
theorem safe_response_never_raises_counterexample :
    safe_get_gemini_response c1_gen_ok ⟨[], 5⟩ "q" (some c1_search_down) = wrapper_apology ∧
    wrapper_apology ≠ fetcher_apology ∧
    get_gemini_response c1_gen_ok ⟨[], 5⟩ "q" (some c1_search_down) =
      Except.error "net down" := by
  refine ⟨rfl, by decide, rfl⟩

/-! ### Substring decomposition toolkit

Small general lemmas about `<+:` (prefix), `<:+` (suffix) and `<:+:`
(infix) on lists, used to show where a pattern can occur inside an
append of prompt segments. -/

lemma sub_of_pre {α : Type} {t w : List α} (h : t <+: w) : t <:+: w := by
  obtain ⟨s, hs⟩ := h
  exact ⟨[], s, by simpa using hs⟩

lemma sub_of_suf {α : Type} {t w : List α} (h : t <:+ w) : t <:+: w := by
  obtain ⟨s, hs⟩ := h
  exact ⟨s, [], by simpa using hs⟩

lemma sub_cons_of_sub {α : Type} {t w : List α} (c : α) (h : t <:+: w) : t <:+: c :: w := by
  obtain ⟨u, v, huv⟩ := h
  exact ⟨c :: u, v, by simp [← huv]⟩

lemma suf_cons_of_suf {α : Type} {a w : List α} (c : α) (h : a <:+ w) : a <:+ c :: w := by
  obtain ⟨s, hs⟩ := h
  exact ⟨c :: s, by simp [← hs]⟩

lemma mem_of_sub {α : Type} {t w : List α} {x : α} (h : t <:+: w) (hx : x ∈ t) : x ∈ w := by
  obtain ⟨u, v, huv⟩ := h
  rw [← huv]
  simp [hx]

lemma pre_append_cases {α : Type} {t x y : List α} (h : t <+: x ++ y) :
    t <+: x ∨ ∃ b, t = x ++ b ∧ b <+: y := by
  induction x generalizing t with
  | nil =>
    right
    exact ⟨t, by simp, by simpa using h⟩
  | cons c x' ih =>
    cases t with
    | nil => left; exact ⟨c :: x', rfl⟩
    | cons d t' =>
      obtain ⟨w, hw⟩ := h
      simp only [List.cons_append] at hw
      injection hw with h1 h2
      subst h1
      rcases ih ⟨w, h2⟩ with h3 | ⟨b, hb1, hb2⟩
      · left
        obtain ⟨s, hs⟩ := h3
        exact ⟨s, by simp [hs]⟩
      · right
        exact ⟨b, by simp [hb1], hb2⟩

lemma sub_cons_cases {α : Type} {t w : List α} {c : α} (h : t <:+: c :: w) :
    t <+: c :: w ∨ t <:+: w := by
  obtain ⟨u, v, huv⟩ := h
  cases u with
  | nil => left; exact ⟨v, by simpa using huv⟩
  | cons d u' =>
    simp only [List.cons_append] at huv
    injection huv with h1 h2
    right
    exact ⟨u', v, h2⟩

/-- Any occurrence of `t` inside `x ++ y` lies in `x`, lies in `y`, or
crosses the junction, splitting `t` into a nonempty suffix of `x`
followed by a nonempty prefix of `y`. -/
lemma sub_append_cases {α : Type} {t x y : List α} (h : t <:+: x ++ y) :
    t <:+: x ∨ t <:+: y ∨
      ∃ a b, t = a ++ b ∧ a ≠ [] ∧ b ≠ [] ∧ a <:+ x ∧ b <+: y := by
  induction x with
  | nil =>
    right; left
    simpa using h
  | cons c x' ih =>
    rw [List.cons_append] at h
    rcases sub_cons_cases h with hpre | hsub
    · rw [← List.cons_append] at hpre
      rcases pre_append_cases hpre with h1 | ⟨b, hb1, hb2⟩
      · left
        exact sub_of_pre h1
      · cases b with
        | nil =>
          left
          refine ⟨[], [], ?_⟩
          simp [hb1]
        | cons b0 b' =>
          right; right
          exact ⟨c :: x', b0 :: b', by simpa using hb1, by simp, by simp, ⟨[], rfl⟩, hb2⟩
    · rcases ih hsub with h1 | h2 | ⟨a, b, hab, ha, hb, hax, hby⟩
      · left
        exact sub_cons_of_sub c h1
      · right; left
        exact h2
      · right; right
        exact ⟨a, b, hab, ha, hb, suf_cons_of_suf c hax, hby⟩

/-- A nonempty prefix of `c :: y'` contains `c`. -/
lemma pre_cons_mem {α : Type} {b y' : List α} {c : α} (h : b <+: c :: y') (hb : b ≠ []) :
    c ∈ b := by
  obtain ⟨s, hs⟩ := h
  cases b with
  | nil => exact absurd rfl hb
  | cons d b' =>
    simp only [List.cons_append] at hs
    injection hs with h1 _
    rw [h1]
    simp

/-! ### C2: prompt assembly, grounded vs ungrounded -/

/-- The label of the retrieved-documents section of the assembled prompt. -/
def doc_label : String := "Relevant document content"

lemma label_head : doc_label.data = 'R' :: "elevant document content".data := rfl

lemma label_no_newline : ('\n' : Char) ∉ doc_label.data := by decide

lemma R_mem_label : ('R' : Char) ∈ doc_label.data := by decide

/-- A nonempty prefix of the label starts with `'R'`. -/
lemma pre_label_R {a : List Char} (h : a <+: doc_label.data) (ha : a ≠ []) : 'R' ∈ a := by
  rw [label_head] at h
  exact pre_cons_mem h ha

/-- In a list with no `'R'`, the label neither occurs nor starts an
occurrence that crosses out of the list to the right. -/
lemma noR_no_label {x : List Char} (hx : ('R' : Char) ∉ x) :
    (¬ doc_label.data <:+: x) ∧
    (∀ a, a <:+ x → a ≠ [] → ¬ a <+: doc_label.data) := by
  constructor
  · intro h
    exact hx (mem_of_sub h R_mem_label)
  · intro a hax ha hpre
    exact hx (mem_of_sub (sub_of_suf hax) (pre_label_R hpre ha))

/-- The document-section label cannot occur in the ungrounded prompt
frame: every fixed segment is `'R'`-free, the label contains no newline
(so it cannot cross into the `"\n\nUser query: "` segment), and by
hypothesis it occurs neither in the rendered conversation context nor in
the user prompt. -/
lemma label_not_in_ungrounded_data (ctx p : List Char)
    (hc : ¬ doc_label.data <:+: ctx) (hp : ¬ doc_label.data <:+: p) :
    ¬ doc_label.data <:+:
      (base_context.data ++ ("\n".data ++ (ctx ++ (("\n\nUser query: ").data ++ p)))) := by
  have hbase := noR_no_label (x := base_context.data) (by decide)
  have hnl := noR_no_label (x := ("\n" : String).data) (by decide)
  have huq := noR_no_label (x := ("\n\nUser query: ").data) (by decide)
  intro h
  rcases sub_append_cases h with h1 | h2 | ⟨a, b, hab, ha, hb, hax, hby⟩
  · exact hbase.1 h1
  · rcases sub_append_cases h2 with g1 | g2 | ⟨a, b, hab, ha, hb, hax, hby⟩
    · exact hnl.1 g1
    · rcases sub_append_cases g2 with k1 | k2 | ⟨a, b, hab, ha, hb, hax, hby⟩
      · exact hc k1
      · rcases sub_append_cases k2 with l1 | l2 | ⟨a, b, hab, ha, hb, hax, hby⟩
        · exact huq.1 l1
        · exact hp l2
        · exact huq.2 a hax ha ⟨b, hab.symm⟩
      · -- crossing from the context into "\n\nUser query: " ++ p:
        -- the continuation starts with a newline, which the label lacks.
        have hstart : ("\n\nUser query: ").data ++ p = '\n' :: ("\nUser query: ".data ++ p) := rfl
        rw [hstart] at hby
        have : ('\n' : Char) ∈ b := pre_cons_mem hby hb
        exact label_no_newline (by rw [hab]; exact List.mem_append.mpr (Or.inr this))
    · exact hnl.2 a hax ha ⟨b, hab.symm⟩
  · exact hbase.2 a hax ha ⟨b, hab.symm⟩

/-- C2.  The assembled prompt: with an active vectorstore the pipeline
feeds the LLM exactly the four-part grounded prompt (preamble, rendered
buffer context, labeled document section holding the `k = 2` retrieval
result newline-joined, labeled user query, in that order), whose data
contains the section label; with no vectorstore it feeds the three-part
ungrounded prompt, which contains no "Relevant document content" section
at all (provided, necessarily, that neither the rendered context nor the
user prompt itself contains that label text). -/
theorem prompt_assembly_grounded_vs_ungrounded
    (m : Model) (cb : ConversationBuffer) (p : String) (vs : Vectorstore) (docs : List Doc)
    (hs : vs.similarity_search p 2 = .ok docs)
    (hc : ¬ doc_label.data <:+: cb.get_context.data)
    (hp : ¬ doc_label.data <:+: p.data) :
    get_gemini_response m cb p (some vs) =
      generateStep m (full_context_grounded cb.get_context
        (joinStr "\n" (docs.map Doc.page_content)) p) ∧
    doc_label.data <:+: (full_context_grounded cb.get_context
      (joinStr "\n" (docs.map Doc.page_content)) p).data ∧
    get_gemini_response m cb p none =
      generateStep m (full_context_ungrounded cb.get_context p) ∧
    ¬ doc_label.data <:+: (full_context_ungrounded cb.get_context p).data := by
  refine ⟨?_, ?_, ?_, ?_⟩
  · unfold get_gemini_response
    dsimp only
    rw [hs]
  · have hsplitS : ("\n\nRelevant document content:\n" : String) = "\n\n" ++ doc_label ++ ":\n" := rfl
    have hstring : full_context_grounded cb.get_context
        (joinStr "\n" (docs.map Doc.page_content)) p =
        (base_context ++ "\n" ++ cb.get_context ++ "\n\n") ++ doc_label ++
          (":\n" ++ joinStr "\n" (docs.map Doc.page_content) ++ "\n\nUser query: " ++ p) := by
      unfold full_context_grounded
      rw [hsplitS]
      simp only [strAppendAssoc]
    refine ⟨(base_context ++ "\n" ++ cb.get_context ++ "\n\n").data,
      ((":\n" : String) ++ joinStr "\n" (docs.map Doc.page_content) ++
        "\n\nUser query: " ++ p).data, ?_⟩
    rw [hstring]
    rfl
  · rfl
  · have hshape : (full_context_ungrounded cb.get_context p).data =
        base_context.data ++ (("\n" : String).data ++ (cb.get_context.data ++
          (("\n\nUser query: " : String).data ++ p.data))) := by
      simp [full_context_ungrounded, List.append_assoc]
    rw [hshape]
    exact label_not_in_ungrounded_data _ _ hc hp

/-- Backend double for the C2 witness: a retrieval that returns two
chunks, best match first. -/
def c2_vs : Vectorstore := ⟨fun _ _ => .ok [⟨"best chunk"⟩, ⟨"second chunk"⟩]⟩

/-- Backend double for the C2 witness: an LLM that answers plainly. -/
def c2_model : Model := ⟨fun _ => .ok (.text "ans")⟩

/-- Witness for C2 at a concrete query with an empty buffer. -/
theorem prompt_assembly_grounded_vs_ungrounded_witness :
    get_gemini_response c2_model ⟨[], 5⟩ "how deep to plant maize" (some c2_vs) =
      generateStep c2_model (full_context_grounded (ConversationBuffer.get_context ⟨[], 5⟩)
        (joinStr "\n" (([(⟨"best chunk"⟩ : Doc), ⟨"second chunk"⟩]).map Doc.page_content))
        "how deep to plant maize") ∧
    doc_label.data <:+: (full_context_grounded (ConversationBuffer.get_context ⟨[], 5⟩)
      (joinStr "\n" (([(⟨"best chunk"⟩ : Doc), ⟨"second chunk"⟩]).map Doc.page_content))
      "how deep to plant maize").data ∧
    get_gemini_response c2_model ⟨[], 5⟩ "how deep to plant maize" none =
      generateStep c2_model (full_context_ungrounded (ConversationBuffer.get_context ⟨[], 5⟩)
        "how deep to plant maize") ∧
    ¬ doc_label.data <:+: (full_context_ungrounded (ConversationBuffer.get_context ⟨[], 5⟩)
      "how deep to plant maize").data :=
  prompt_assembly_grounded_vs_ungrounded c2_model ⟨[], 5⟩ "how deep to plant maize" c2_vs
    [⟨"best chunk"⟩, ⟨"second chunk"⟩] rfl
    ((noR_no_label (by decide)).1) ((noR_no_label (by decide)).1)

/-! ### C9: fetcher purity and caller-side state updates
(`chat_interface` chat round, app.py lines 287-298) -/

/-- One entry of the displayed message log `st.session_state.messages`:
`{"role", "content", "time"}`. -/
structure DisplayMsg where
  role : String
  content : String
  time : String
deriving DecidableEq

/-- The session state touched by one chat round: the unbounded display
log, the bounded conversation buffer, and the active vectorstore. -/
structure ChatSt where
  messages : List DisplayMsg
  conversation_buffer : ConversationBuffer
  vectorstore : Option Vectorstore

/-- The wall clock behind `get_current_time()`; one chat round samples it
for the timestamps shown next to the two new messages. -/
structure ClockEnv where
  now : String

/-- One chat round of `chat_interface` (app.py lines 287-298): record the
user turn in the display log and the buffer, call `get_gemini_response`
(directly — not the safe wrapper) on the updated buffer, then record the
assistant reply in the display log and the buffer.  A retrieval failure
inside `get_gemini_response` propagates out of the round. -/
def chatRound (env : ClockEnv) (m : Model) (st : ChatSt) (prompt : String) :
    Except Err ChatSt :=
  let messages₁ := st.messages ++ [⟨"user", prompt, env.now⟩]
  let buffer₁ := st.conversation_buffer.add_message "user" prompt
  match get_gemini_response m buffer₁ prompt st.vectorstore with
  | .error e => .error e
  | .ok response =>
    .ok ⟨messages₁ ++ [⟨"assistant", response, env.now⟩],
      buffer₁.add_message "assistant" response,
      st.vectorstore⟩

/-- C9.  The response fetcher is pure with respect to conversation state:
it reads the buffer only through `get_context` (two buffers with the same
rendering get the same reply, whatever their raw turn lists), and in a
chat round every buffer and message-log update is performed by the
caller: the post-round buffer is exactly the pre-round buffer with the
user turn and returned reply appended through `add_message`, the display
log is the old log plus those two entries, and the vectorstore is
untouched. -/
theorem fetcher_purity (m : Model) (p : String) (vsO : Option Vectorstore)
    (b₁ b₂ : ConversationBuffer) (h : b₁.get_context = b₂.get_context) :
    get_gemini_response m b₁ p vsO = get_gemini_response m b₂ p vsO ∧
    safe_get_gemini_response m b₁ p vsO = safe_get_gemini_response m b₂ p vsO ∧
    (∀ (env : ClockEnv) (st st' : ChatSt), chatRound env m st p = .ok st' →
      ∃ r, get_gemini_response m (st.conversation_buffer.add_message "user" p) p
            st.vectorstore = .ok r ∧
        st'.conversation_buffer =
          (st.conversation_buffer.add_message "user" p).add_message "assistant" r ∧
        st'.messages = st.messages ++ [⟨"user", p, env.now⟩, ⟨"assistant", r, env.now⟩] ∧
        st'.vectorstore = st.vectorstore) := by
  have hmain : get_gemini_response m b₁ p vsO = get_gemini_response m b₂ p vsO := by
    unfold get_gemini_response
    rw [h]
  refine ⟨hmain, ?_, ?_⟩
  · unfold safe_get_gemini_response
    rw [hmain]
  · intro env st st' hround
    unfold chatRound at hround
    dsimp only at hround
    cases hres : get_gemini_response m (st.conversation_buffer.add_message "user" p) p
        st.vectorstore with
    | error e => rw [hres] at hround; exact absurd hround (by simp)
    | ok r =>
      rw [hres] at hround
      injection hround with h'
      refine ⟨r, rfl, ?_, ?_, ?_⟩ <;> (rw [← h']; try simp)

/-- Two raw buffers with different turn lists but identical renderings,
for the C9 witness. -/
def c9_buf_split : ConversationBuffer := ⟨[⟨"u", "x"⟩, ⟨"v", "y"⟩], 5⟩

/-- A one-turn buffer whose single content embeds a newline so that it
renders exactly like `c9_buf_split`. -/
def c9_buf_merged : ConversationBuffer := ⟨[⟨"u", "x\nv: y"⟩], 5⟩

/-- Witness for C9: the two distinct buffers render identically, so the
fetcher treats them identically; and a concrete chat round records
exactly the caller-side updates. -/
theorem fetcher_purity_witness :
    get_gemini_response c2_model c9_buf_split "q" none =
      get_gemini_response c2_model c9_buf_merged "q" none ∧
    safe_get_gemini_response c2_model c9_buf_split "q" none =
      safe_get_gemini_response c2_model c9_buf_merged "q" none ∧
    (∀ (env : ClockEnv) (st st' : ChatSt), chatRound env c2_model st "q" = .ok st' →
      ∃ r, get_gemini_response c2_model (st.conversation_buffer.add_message "user" "q") "q"
            st.vectorstore = .ok r ∧
        st'.conversation_buffer =
          (st.conversation_buffer.add_message "user" "q").add_message "assistant" r ∧
        st'.messages = st.messages ++ [⟨"user", "q", env.now⟩, ⟨"assistant", r, env.now⟩] ∧
        st'.vectorstore = st.vectorstore) :=
  fetcher_purity c2_model "q" none c9_buf_split c9_buf_merged rfl

/-! ## Chunker (app.py lines 81-82)

Modelled from the spec: the chunker used by `process_document` is
langchain's `RecursiveCharacterTextSplitter(chunk_size=1000,
chunk_overlap=200)`, an external library whose source is not part of this
repository.  Following spec section 4.1, it is modelled as the sliding
window that the spec's hard-character-cut fallback describes: chunks of
at most `size` characters starting every `size - overlap` characters
(the natural-boundary preference only moves cut points and is abstracted
away).  Empty input produces an empty chunk sequence. -/

/-- Sliding-window splitter over character lists, with an explicit fuel
argument so the recursion is structural: emit `s.take size` and recurse
on `s.drop step` (`step = size - overlap`) until at most `size`
characters remain.  The `step = 0` branch is a degenerate guard never
reached by the program, which uses `step = 800`. -/
def splitChunksGo (size step : Nat) : Nat → List Char → List (List Char)
  | 0, _ => []
  | Nat.succ fuel, s =>
    if s = [] then []
    else if s.length ≤ size then [s]
    else if step = 0 then [s.take size]
    else s.take size :: splitChunksGo size step fuel (s.drop step)

/-- The splitter proper: fuel `s.length` always suffices, since each
round consumes at least one character when `step ≥ 1`. -/
def splitChunks (size step : Nat) (s : List Char) : List (List Char) :=
  splitChunksGo size step s.length s

/-- `text_splitter.split_text` with the program's parameters
(`chunk_size=1000`, `chunk_overlap=200`, hence window step 800). -/
def split_text (text : String) : List String :=
  (splitChunks 1000 800 text.data).map (fun l => ⟨l⟩)

lemma splitChunksGo_chunk_le (size step : Nat) :
    ∀ (fuel : Nat) (s : List Char), ∀ ch ∈ splitChunksGo size step fuel s, ch.length ≤ size := by
  intro fuel
  induction fuel with
  | zero =>
    intro s ch hch
    simp [splitChunksGo] at hch
  | succ fuel ih =>
    intro s ch hch
    rw [splitChunksGo] at hch
    by_cases h : s = []
    · rw [if_pos h] at hch
      simp at hch
    · rw [if_neg h] at hch
      by_cases h2 : s.length ≤ size
      · rw [if_pos h2] at hch
        simp only [List.mem_singleton] at hch
        rw [hch]
        exact h2
      · rw [if_neg h2] at hch
        by_cases h3 : step = 0
        · rw [if_pos h3] at hch
          simp only [List.mem_singleton] at hch
          rw [hch]
          simp only [List.length_take]
          omega
        · rw [if_neg h3] at hch
          rcases List.mem_cons.mp hch with h4 | h4
          · rw [h4]
            simp only [List.length_take]
            omega
          · exact ih (s.drop step) ch h4

lemma splitChunksGo_cover (size step : Nat) (hstep : 1 ≤ step) (hss : step ≤ size) :
    ∀ (fuel : Nat) (s : List Char), s.length ≤ fuel →
      ∀ c ∈ s, ∃ ch ∈ splitChunksGo size step fuel s, c ∈ ch := by
  intro fuel
  induction fuel with
  | zero =>
    intro s hs c hc
    have : s = [] := by
      cases s with
      | nil => rfl
      | cons a s' => simp at hs
    subst this
    simp at hc
  | succ fuel ih =>
    intro s hs c hc
    rw [splitChunksGo]
    have h : ¬ s = [] := by
      intro h
      subst h
      simp at hc
    rw [if_neg h]
    by_cases h2 : s.length ≤ size
    · rw [if_pos h2]
      exact ⟨s, by simp, hc⟩
    · rw [if_neg h2]
      rw [if_neg (by omega : ¬ step = 0)]
      have hsplit : s = s.take step ++ s.drop step := (List.take_append_drop step s).symm
      rw [hsplit] at hc
      rcases List.mem_append.mp hc with h4 | h4
      · refine ⟨s.take size, by simp, ?_⟩
        have : s.take step = (s.take size).take step := by
          rw [List.take_take, Nat.min_eq_left hss]
        rw [this] at h4
        exact List.mem_of_mem_take h4
      · have hlen : (s.drop step).length ≤ fuel := by
          have hpos : 0 < s.length := List.length_pos.mpr h
          simp only [List.length_drop]
          omega
        obtain ⟨ch, hch, hcch⟩ := ih (s.drop step) hlen c h4
        exact ⟨ch, List.mem_cons_of_mem _ hch, hcch⟩

/-- C7.  For every input text: every character of the input appears in at
least one chunk produced by `split_text` (window 1000, overlap 200); no
produced chunk exceeds 1000 characters; and the chunk sequence is a
deterministic function of the input. -/
theorem chunker_cover_bound_deterministic (text : String) :
    (∀ c ∈ text.data, ∃ ch ∈ split_text text, c ∈ ch.data) ∧
    (∀ ch ∈ split_text text, ch.length ≤ 1000) ∧
    (∀ t : String, text = t → split_text text = split_text t) := by
  refine ⟨?_, ?_, ?_⟩
  · intro c hc
    obtain ⟨ch, hch, hcch⟩ :=
      splitChunksGo_cover 1000 800 (by omega) (by omega) text.data.length text.data le_rfl c hc
    exact ⟨⟨ch⟩, List.mem_map.mpr ⟨ch, hch, rfl⟩, hcch⟩
  · intro ch hch
    obtain ⟨l, hl, rfl⟩ := List.mem_map.mp hch
    exact splitChunksGo_chunk_le 1000 800 text.data.length text.data l hl
  · intro t ht
    rw [ht]

/-- Witness for C7 on a concrete two-character document. -/
theorem chunker_cover_bound_deterministic_witness :
    (∃ ch ∈ split_text "ab", 'a' ∈ ch.data) ∧
    (∀ ch ∈ split_text "ab", ch.length ≤ 1000) :=
  ⟨(chunker_cover_bound_deterministic "ab").1 'a' (by decide),
   (chunker_cover_bound_deterministic "ab").2.1⟩

/-! ## Document ingestion (`process_document`, app.py lines 50-108, and
the upload branch of `chat_interface`, lines 231-247) -/

/-- Python `str.endswith`. -/
def nameEndsWith (s pat : String) : Bool :=
  pat.data.isSuffixOf s.data

/-- An uploaded file as `process_document` sees it: its `name` (used only
to select a parser), its `size` in bytes, and its raw payload (abstracted
as the string handed to the parser oracles). -/
structure UploadFile where
  name : String
  size : Nat
  content : String

/-- External collaborators of the ingestion pipeline, parameterized by
the index type `Ix` built by the vector store: the three parsers
(`process_pdf` via PyPDF2, `UnstructuredFileLoader` for docx, plain
`readlines` for txt), each returning the list of extracted text pieces or
raising; and the two FAISS index builders (`FAISS.from_texts` for the
first batch, `vectorstore.add_texts` for later batches), which raise if
the embedding backend is unavailable. -/
structure IngestEnv (Ix : Type) where
  process_pdf : String → Except Err (List String)
  parse_docx : String → Except Err (List String)
  read_txt : String → Except Err (List String)
  from_texts : List String → Except Err Ix
  add_texts : Ix → List String → Except Err Ix

/-- Observable steps of one `process_document` call, used to state in
which order the guards and the work happen. -/
inductive IngestEvent where
  | tempCreate
  | parseDoc
  | chunkSplit
  | embedBatches
  | tempDelete
deriving DecidableEq

/-- `MAX_FILE_SIZE = 15 * 1024 * 1024` (app.py line 51). -/
def MAX_FILE_SIZE : Nat := 15 * 1024 * 1024

/-- The extension dispatch of app.py lines 68-79, run on the temporary
file: `.pdf`, then `.docx`, then `.txt`, otherwise `None` for the
unsupported-format rejection. -/
def extractTexts {Ix : Type} (env : IngestEnv Ix) (file : UploadFile) :
    Option (Except Err (List String)) :=
  if nameEndsWith file.name ".pdf" then some (env.process_pdf file.content)
  else if nameEndsWith file.name ".docx" then some (env.parse_docx file.content)
  else if nameEndsWith file.name ".txt" then some (env.read_txt file.content)
  else none

/-- Python `range(0, len(l), n)` slicing into batches `l[i:i+n]`
(app.py line 87), with an explicit structural fuel.  The `n = 0` guard is
degenerate (Python would raise) and never reached: the program uses
`batch_size = 1000`. -/
def batchedGo (n : Nat) : Nat → List String → List (List String)
  | 0, _ => []
  | Nat.succ fuel, l =>
    if l = [] then []
    else if n = 0 then [l]
    else l.take n :: batchedGo n fuel (l.drop n)

/-- Batching proper: fuel `l.length` always suffices. -/
def batched (n : Nat) (l : List String) : List (List String) :=
  batchedGo n l.length l

/-- The batched index build loop of app.py lines 85-92: starting from
`vectorstore = None`, the first batch goes through `FAISS.from_texts`,
later batches through `add_texts`; any raise aborts the loop.  An empty
batch list leaves `vectorstore = None`. -/
def buildLoop {Ix : Type} (env : IngestEnv Ix) :
    Option Ix → List (List String) → Except Err (Option Ix)
  | vs, [] => .ok vs
  | none, batch :: rest =>
    match env.from_texts batch with
    | .error e => .error e
    | .ok v => buildLoop env (some v) rest
  | some v, batch :: rest =>
    match env.add_texts v batch with
    | .error e => .error e
    | .ok v2 => buildLoop env (some v2) rest

/-- The whole index build over the chunk list (batch size 1000). -/
def buildVectorstore {Ix : Type} (env : IngestEnv Ix) (split_texts : List String) :
    Except Err (Option Ix) :=
  buildLoop env none (batched 1000 split_texts)

/-- `process_document` (app.py lines 50-108) with its event trace.
The 15 MB bound is checked first, before anything happens (empty trace).
Otherwise the upload is copied into a temporary file, the extension
dispatch runs (unsupported formats stop here), the parser runs, the text
is newline-joined and chunked, and the chunk batches are embedded; any
exception in parser or build is caught and `None` is returned; the
`finally` block always removes the temporary file. -/
def process_document {Ix : Type} (env : IngestEnv Ix) (file : UploadFile) :
    Option Ix × List IngestEvent :=
  if file.size > MAX_FILE_SIZE then (none, [])
  else
    match extractTexts env file with
    | none => (none, [.tempCreate, .tempDelete])
    | some (.error _) => (none, [.tempCreate, .parseDoc, .tempDelete])
    | some (.ok texts) =>
      match buildVectorstore env (split_text (joinStr "\n" texts)) with
      | .error _ => (none, [.tempCreate, .parseDoc, .chunkSplit, .embedBatches, .tempDelete])
      | .ok vs => (vs, [.tempCreate, .parseDoc, .chunkSplit, .embedBatches, .tempDelete])

/-- The slice of `st.session_state` that the upload branch of
`chat_interface` reads and writes: the active vectorstore and the
`last_uploaded_file` marker (`none` when the attribute is absent). -/
structure UploadSt (Ix : Type) where
  vectorstore : Option Ix
  last_uploaded_file : Option String
deriving DecidableEq

/-- The upload branch of `chat_interface` (app.py lines 231-247): the
size gate, the changed-file check, then `process_document`; only a
non-`None` result replaces the active vectorstore and records the file
name. -/
def uploadStep {Ix : Type} (env : IngestEnv Ix) (st : UploadSt Ix) (file : UploadFile) :
    UploadSt Ix :=
  if file.size > MAX_FILE_SIZE then st
  else if st.last_uploaded_file ≠ some file.name then
    match (process_document env file).1 with
    | some v => ⟨some v, some file.name⟩
    | none => st
  else st

/-! ### C5: ingestion failures are atomic -/

/-- C5.  Ingestion is all-or-nothing: a parser failure or any failure in
the batched index build makes `process_document` return `None` (no
partially built index is ever returned — the local partial `vectorstore`
is discarded by the catch-all `except`); and the caller keeps the
previously active vectorstore whenever `process_document` returns `None`,
replacing it only when a fully built index comes back. -/
theorem ingestion_atomicity {Ix : Type} (env : IngestEnv Ix) (st : UploadSt Ix)
    (file : UploadFile) :
    ((process_document env file).1 = none → uploadStep env st file = st) ∧
    (∀ e, extractTexts env file = some (.error e) → (process_document env file).1 = none) ∧
    (∀ (texts : List String) (e : Err), extractTexts env file = some (.ok texts) →
      buildVectorstore env (split_text (joinStr "\n" texts)) = .error e →
      (process_document env file).1 = none) ∧
    (∀ v, (process_document env file).1 = some v → ¬ file.size > MAX_FILE_SIZE →
      st.last_uploaded_file ≠ some file.name →
      uploadStep env st file = ⟨some v, some file.name⟩) := by
  refine ⟨?_, ?_, ?_, ?_⟩
  · intro hnone
    unfold uploadStep
    by_cases hsize : file.size > MAX_FILE_SIZE
    · rw [if_pos hsize]
    · rw [if_neg hsize]
      by_cases hlast : st.last_uploaded_file ≠ some file.name
      · rw [if_pos hlast, hnone]
      · rw [if_neg hlast]
  · intro e hex
    unfold process_document
    by_cases hsize : file.size > MAX_FILE_SIZE
    · rw [if_pos hsize]
    · rw [if_neg hsize, hex]
  · intro texts e hex hbuild
    unfold process_document
    by_cases hsize : file.size > MAX_FILE_SIZE
    · rw [if_pos hsize]
    · rw [if_neg hsize, hex]
      dsimp only
      rw [hbuild]
  · intro v hv hsize hlast
    unfold uploadStep
    rw [if_neg hsize, if_pos hlast, hv]

/-- Ingestion environment whose embedding backend is down: the index
build raises on every batch. -/
def c5_embed_down : IngestEnv Nat :=
  ⟨fun _ => .ok ["page"], fun _ => .ok ["page"], fun _ => .ok ["x"],
   fun _ => .error "embed down", fun _ _ => .error "embed down"⟩

/-- Ingestion environment whose parser raises. -/
def c5_parse_down : IngestEnv Nat :=
  ⟨fun _ => .error "bad bytes", fun _ => .error "bad bytes", fun _ => .error "bad bytes",
   fun _ => .ok 0, fun v _ => .ok v⟩

/-- Ingestion environment where everything succeeds, building index 42. -/
def c5_ok_env : IngestEnv Nat :=
  ⟨fun _ => .ok ["page"], fun _ => .ok ["page"], fun _ => .ok ["x"],
   fun _ => .ok 42, fun v _ => .ok v⟩

/-- A small supported upload. -/
def c5_file : UploadFile := ⟨"notes.txt", 5, "x"⟩

/-- A session that already holds an index built from an earlier upload. -/
def c5_st : UploadSt Nat := ⟨some 7, none⟩

/-- Witness for C5: with the embedding backend down the upload leaves the
session untouched; a parser failure and a build failure each yield `None`;
and a successful build replaces the index. -/
theorem ingestion_atomicity_witness :
    uploadStep c5_embed_down c5_st c5_file = c5_st ∧
    (process_document c5_parse_down c5_file).1 = (none : Option Nat) ∧
    (process_document c5_embed_down c5_file).1 = (none : Option Nat) ∧
    uploadStep c5_ok_env c5_st c5_file = ⟨some 42, some "notes.txt"⟩ :=
  ⟨(ingestion_atomicity c5_embed_down c5_st c5_file).1 rfl,
   (ingestion_atomicity c5_parse_down c5_st c5_file).2.1 "bad bytes" rfl,
   (ingestion_atomicity c5_embed_down c5_st c5_file).2.2.1 ["x"] "embed down" rfl rfl,
   (ingestion_atomicity c5_ok_env c5_st c5_file).2.2.2 42 rfl (by decide) (by decide)⟩

/-! ### C6: upload guards -/

/-- C6 (amended).  The 15 MB bound is checked before anything happens: an
oversized upload is rejected with an empty event trace — in particular no
temporary file is created.  An unsupported-format upload is also rejected
(`None`), with no parsing, chunking or embedding — but only after the
upload has been copied into a temporary file, which the `finally` block
then removes. -/
theorem upload_size_and_format_guards {Ix : Type} (env : IngestEnv Ix) (file : UploadFile) :
    (file.size > MAX_FILE_SIZE → process_document env file = ((none : Option Ix), [])) ∧
    (¬ file.size > MAX_FILE_SIZE → extractTexts env file = none →
      process_document env file =
        ((none : Option Ix), [IngestEvent.tempCreate, IngestEvent.tempDelete])) := by
  constructor
  · intro hsize
    unfold process_document
    rw [if_pos hsize]
  · intro hsize hex
    unfold process_document
    rw [if_neg hsize, hex]

/-- A 16 MB upload. -/
def c6_big_file : UploadFile := ⟨"big.txt", 16 * 1024 * 1024, ""⟩

/-- A small upload in an unsupported format. -/
def c6_exe_file : UploadFile := ⟨"tool.exe", 3, ""⟩

/-- Witness for C6's amended theorem at a 16 MB file and an `.exe` file. -/
theorem upload_size_and_format_guards_witness :
    process_document c5_ok_env c6_big_file = ((none : Option Nat), []) ∧
    process_document c5_ok_env c6_exe_file =
      ((none : Option Nat), [IngestEvent.tempCreate, IngestEvent.tempDelete]) :=
  ⟨(upload_size_and_format_guards c5_ok_env c6_big_file).1 (by decide),
   (upload_size_and_format_guards c5_ok_env c6_exe_file).2 (by decide) rfl⟩

/-- C6 counterexample.  An unsupported-format upload is not rejected
before processing starts: the upload is first copied into a temporary
file (the trace contains `tempCreate`), unlike an oversized upload whose
trace is empty. -/
theorem upload_size_and_format_guards_counterexample :
    (process_document c5_ok_env c6_exe_file).1 = (none : Option Nat) ∧
    IngestEvent.tempCreate ∈ (process_document c5_ok_env c6_exe_file).2 := by
  exact ⟨rfl, by decide⟩

/-! ### C10: empty documents build no index -/

/-- C10.  A supported upload whose extracted text yields zero chunks
makes the batch loop run zero times, so `process_document` returns the
initial `vectorstore = None` — indistinguishable from an ingestion
failure — and the caller keeps the previously active index. -/
theorem empty_document_returns_none {Ix : Type} (env : IngestEnv Ix) (st : UploadSt Ix)
    (file : UploadFile) (texts : List String)
    (hex : extractTexts env file = some (.ok texts))
    (hsplit : split_text (joinStr "\n" texts) = []) :
    (process_document env file).1 = none ∧
    uploadStep env st file = st := by
  have hnone : (process_document env file).1 = none := by
    unfold process_document
    by_cases hsize : file.size > MAX_FILE_SIZE
    · rw [if_pos hsize]
    · rw [if_neg hsize, hex]
      dsimp only
      rw [hsplit]
      rfl
  exact ⟨hnone, (ingestion_atomicity env st file).1 hnone⟩

/-- Ingestion environment that extracts an empty text list. -/
def c10_env : IngestEnv Nat :=
  ⟨fun _ => .ok [], fun _ => .ok [], fun _ => .ok [], fun _ => .ok 0, fun v _ => .ok v⟩

/-- An empty but well-formed text upload. -/
def c10_file : UploadFile := ⟨"empty.txt", 0, ""⟩

/-- Witness for C10 at a concrete empty `.txt` upload. -/
theorem empty_document_returns_none_witness :
    (process_document c10_env c10_file).1 = (none : Option Nat) ∧
    uploadStep c10_env c5_st c10_file = c5_st :=
  ⟨(empty_document_returns_none c10_env c5_st c10_file [] rfl rfl).1,
   (empty_document_returns_none c10_env c5_st c10_file [] rfl rfl).2⟩

/-! ## Housekeeping sweep (`cleanup_old_vectorstores`, app.py lines
300-307) and persistence (`save_vectorstore`, lines 118-120) -/

/-- Python `str.startswith`. -/
def nameStartsWith (s pat : String) : Bool :=
  pat.data.isPrefixOf s.data

/-- A directory entry as the sweep sees it: file name and age in whole
days (`file_age.days`). -/
structure StoredFile where
  name : String
  age_days : Nat
deriving DecidableEq

/-- The removal test of app.py lines 303-306: the name must start with
`"vectorstore_"`, end with `".pkl"`, and be strictly older than
`max_age_days` days. -/
def cleanup_should_remove (max_age_days : Nat) (f : StoredFile) : Bool :=
  nameStartsWith f.name "vectorstore_" && nameEndsWith f.name ".pkl" &&
    decide (f.age_days > max_age_days)

/-- `cleanup_old_vectorstores(max_age_days=2)` over a directory listing:
the surviving files after the sweep removes every matching old file. -/
def cleanup_old_vectorstores (max_age_days : Nat) (files : List StoredFile) :
    List StoredFile :=
  files.filter (fun f => ! cleanup_should_remove max_age_days f)

/-- The default filename that `save_vectorstore` writes on successful
ingestion (app.py line 118). -/
def save_vectorstore_filename : String := "vectorstore.pkl"

/-- C8 evaluation.  The sweep's pattern is `vectorstore_*.pkl`, but
`save_vectorstore` writes `vectorstore.pkl` (no underscore), so the file
the program actually persists is never removed, at any age — while files
matching the pattern ARE removed when strictly older than the threshold
and kept at or under it. -/
theorem cleanup_misses_saved_vectorstore :
    cleanup_old_vectorstores 2 [⟨save_vectorstore_filename, 100⟩] =
      [⟨save_vectorstore_filename, 100⟩] ∧
    cleanup_should_remove 2 ⟨save_vectorstore_filename, 100⟩ = false ∧
    cleanup_should_remove 2 ⟨"vectorstore_1.pkl", 3⟩ = true ∧
    cleanup_should_remove 2 ⟨"vectorstore_1.pkl", 2⟩ = false ∧
    cleanup_old_vectorstores 2
        [⟨save_vectorstore_filename, 100⟩, ⟨"vectorstore_1.pkl", 3⟩,
          ⟨"vectorstore_2.pkl", 2⟩] =
      [⟨save_vectorstore_filename, 100⟩, ⟨"vectorstore_2.pkl", 2⟩] := by
  refine ⟨by decide, by decide, by decide, by decide, by decide⟩
